import Mathlib

/-!
Verification of the natural-language specification of
`ServerListViewSet.list` (src/djchat/server/views.py) against a shallow
embedding of the handler.

The handler reads five optional query parameters and the requesting
principal's authentication state, narrows a queryset over the Server store
through a sequence of conditional filters, and serializes the result.  The
spec's glossary models a queryset as "a lazily-evaluated, chainable
description of a filtered database read"; we embed querysets as Lean lists
of records and each ORM call as a pure read of the database state.  The
data model (Server / Category / Membership) and the serializer live in
repository files that are not part of the excerpt (models.py,
serializer.py); those parts are modelled from the spec, as noted on each
definition.
-/

/-- A category record.  Modelled from the spec: models.py is not in the
excerpt; spec section 3 has categories identified by name. -/
structure Category where
  name : String
deriving DecidableEq

/-- A server record.  Modelled from the spec: models.py is not in the
excerpt; spec section 3 gives a unique identifier, a name, a reference to a
Category and to an owning user.  The member set lives in the membership
relation of the database state. -/
structure Server where
  id : Nat
  name : String
  category : Category
  ownerId : Nat
deriving DecidableEq

/-- The database state read by the handler: the Server store plus the
many-to-many membership relation, one row per (server id, user id) pair.
Modelled from the spec: spec section 3, "Membership: a many-to-many
relation between Server and User". -/
structure DB where
  servers : List Server
  memberships : List (Nat × Nat)
deriving DecidableEq

/-- `Count("member")` for one server: the number of membership rows whose
server id matches. -/
def memberCount (db : DB) (sid : Nat) : Nat :=
  (db.memberships.filter (fun m => m.1 == sid)).length

/-- `filter(member = user_id)` membership test: the user has a membership
row for this server. -/
def isMember (db : DB) (uid sid : Nat) : Bool :=
  db.memberships.contains (sid, uid)

/-- The incoming request: the five raw query parameters (absent or a
string, as returned by `request.query_params.get`) plus the requesting
principal's id and authentication state. -/
structure Request where
  category : Option String
  qty : Option String
  by_user : Option String
  by_serverid : Option String
  with_num_members : Option String
  userId : Nat
  isAuthenticated : Bool
deriving DecidableEq

/-- Value of a non-empty run of decimal digits, `none` on anything else. -/
def pyDigits? (cs : List Char) : Option Nat :=
  if cs.isEmpty then none
  else cs.foldl
    (fun acc c => acc.bind (fun n => if c.isDigit then some (n * 10 + (c.toNat - 48)) else none))
    (some 0)

/-- Python `int(s)` on a string: an optional sign followed by decimal
digits.  (CPython also strips whitespace and accepts underscores between
digits and non-ASCII digits; no claim exercises those forms and they are
omitted.)  Returns `none` where `int` raises `ValueError`. -/
def pyInt? (s : String) : Option Int :=
  match s.data with
  | '-' :: cs => (pyDigits? cs).map (fun n => -(n : Int))
  | '+' :: cs => (pyDigits? cs).map (fun n => (n : Int))
  | cs => (pyDigits? cs).map (fun n => (n : Int))

/-- An item of the queryset as it flows through the handler: the server
record plus the `num_members` annotation once `annotate` has run. -/
abbrev QItem := Server × Option Nat

/-- A serialized server record of the response body.  Modelled from the
spec: serializer.py is not in the excerpt; spec section 4.1 step 6 has each
output record carry the server's standard fields and, exactly when
`with_num_members` was requested, a `num_members` field. -/
structure SerializedServer where
  id : Nat
  name : String
  categoryName : String
  ownerId : Nat
  numMembers : Option Nat
deriving DecidableEq

/-- The serializer: standard fields always; `num_members` only when the
`num_members` context flag (set from `with_num_members`) is true.
Modelled from the spec (serializer.py is not in the excerpt). -/
def serializeServer (withNum : Bool) (p : QItem) : SerializedServer :=
  { id := p.1.id
    name := p.1.name
    categoryName := p.1.category.name
    ownerId := p.1.ownerId
    numMembers := if withNum then p.2 else none }

/-- Outcome of one run of the handler: a 200 response carrying serialized
records, an `AuthenticationFailed` raise, a `ValidationError` raise with
its detail string, or an unhandled Python `ValueError` escaping the
handler (from the unguarded `int(qty)`). -/
inductive ListResult where
  | ok (records : List SerializedServer)
  | authFailed
  | validationError (detail : String)
  | valueError
deriving DecidableEq

/-- `queryset = Server.objects.all()`, as queryset items (annotation not
yet attached). -/
def qsStart (db : DB) : List QItem :=
  db.servers.map (fun s => (s, none))

/-- `if category: queryset = queryset.filter(category__name=category)` —
Python truthiness: the filter runs only for a present, non-empty value. -/
def qsCategory (db : DB) (req : Request) : List QItem :=
  match req.category with
  | some c => if c == "" then qsStart db
              else (qsStart db).filter (fun p => p.1.category.name == c)
  | none => qsStart db

/-- `queryset = queryset.filter(member = user_id)` — the branch taken when
`by_user` is `"true"` and the principal is authenticated. -/
def qsMember (db : DB) (req : Request) : List QItem :=
  (qsCategory db req).filter (fun p => isMember db req.userId p.1.id)

/-- `if with_num_members: queryset = queryset.annotate(num_members =
Count("member"))`. -/
def qsAnnotated (db : DB) (req : Request) : List QItem :=
  if req.with_num_members == some "true" then
    (qsMember db req).map (fun p => (p.1, some (memberCount db p.1.id)))
  else qsMember db req

/-- `if qty: queryset = queryset[: int(qty)]` — `qty` is truthy exactly
when present and non-empty; `int(qty)` raises an uncaught `ValueError`
(`none` here) when the string is not integer-parseable. -/
def sliceQty (qty : Option String) (qs : List QItem) : Option (List QItem) :=
  match qty with
  | none => some qs
  | some q =>
    if q == "" then some qs
    else
      match pyInt? q with
      | none => none
      | some k => some (qs.take k.toNat)

/-- The handler `ServerListViewSet.list`, returning its outcome together
with the (unchanged) database state it read.  Mirrors the source line by
line: the category filter, the `by_user` check whose `else` raises
`AuthenticationFailed`, the `with_num_members` annotation, the `qty`
slice, the guarded `by_serverid` filter with its two `ValidationError`
messages, and the final serialization.  The ORM converts the `by_serverid`
string for the integer `id` field, raising the `ValueError` that the
source catches and turns into the `"Server value error"` detail. -/
def list (db : DB) (req : Request) : ListResult × DB :=
  if req.by_user == some "true" && req.isAuthenticated then
    match sliceQty req.qty (qsAnnotated db req) with
    | none => (ListResult.valueError, db)
    | some qs =>
      match req.by_serverid with
      | none =>
          (ListResult.ok (qs.map (serializeServer (req.with_num_members == some "true"))), db)
      | some sid =>
        if sid == "" then
          (ListResult.ok (qs.map (serializeServer (req.with_num_members == some "true"))), db)
        else if !req.isAuthenticated then
          (ListResult.authFailed, db)
        else
          match pyInt? sid with
          | none => (ListResult.validationError "Server value error", db)
          | some i =>
            if (qs.filter (fun p => (p.1.id : Int) == i)).isEmpty then
              (ListResult.validationError ("Server with id " ++ sid ++ " no found"), db)
            else
              (ListResult.ok ((qs.filter (fun p => (p.1.id : Int) == i)).map
                (serializeServer (req.with_num_members == some "true"))), db)
  else (ListResult.authFailed, db)

/-- Servers the given user is a member of — the response the spec predicts
for an authenticated parameterless request. -/
def memberServers (db : DB) (uid : Nat) : List Server :=
  db.servers.filter (fun s => isMember db uid s.id)

/-- A default category and small concrete stores and requests used by the
counterexamples and witnesses. -/
def catGeneral : Category := { name := "general" }

def srvA : Server := { id := 1, name := "alpha", category := catGeneral, ownerId := 7 }

def srvB : Server := { id := 2, name := "beta", category := catGeneral, ownerId := 7 }

def srvC : Server := { id := 3, name := "gamma", category := catGeneral, ownerId := 7 }

/-- One server, user 42 is a member. -/
def dbOne : DB := { servers := [srvA], memberships := [(1, 42)] }

/-- Three servers with ids 1, 2, 3; user 42 is a member of all three. -/
def dbThree : DB :=
  { servers := [srvA, srvB, srvC], memberships := [(1, 42), (2, 42), (3, 42)] }

/-- An authenticated request with no query parameters. -/
def baseReq : Request :=
  { category := none, qty := none, by_user := none, by_serverid := none
    with_num_members := none, userId := 42, isAuthenticated := true }

example : (list dbOne baseReq).1 = ListResult.authFailed := by rfl

example :
    (list dbOne { baseReq with by_user := some "true" }).1 =
      ListResult.ok [serializeServer false (srvA, none)] := by rfl

example :
    (list dbOne { baseReq with by_user := some "true", by_serverid := some "999" }).1 =
      ListResult.validationError "Server with id 999 no found" := by rfl

example :
    (list dbOne { baseReq with by_user := some "true", by_serverid := some "abc" }).1 =
      ListResult.validationError "Server value error" := by rfl

example :
    (list dbThree { baseReq with by_user := some "true", qty := some "2" }).1 =
      ListResult.ok [serializeServer false (srvA, none), serializeServer false (srvB, none)] := by
  rfl

example :
    (list dbOne { baseReq with by_user := some "true", with_num_members := some "true" }).1 =
      ListResult.ok [serializeServer true (srvA, some 1)] := by rfl

example :
    (list dbOne { baseReq with by_user := some "true", qty := some "abc" }).1 =
      ListResult.valueError := by rfl

/-! ### Basic control-flow lemmas -/

/-- Whenever `by_user` is not the exact string `"true"`, the `else` paired
with the `by_user` check raises `AuthenticationFailed`, whatever else the
request carries. -/
lemma list_eq_authFailed_of_by_user_ne (db : DB) (req : Request)
    (h : req.by_user ≠ some "true") : list db req = (ListResult.authFailed, db) := by
  have hb : (req.by_user == some "true") = false := beq_eq_false_iff_ne.mpr h
  unfold list
  rw [hb]
  simp

/-- Whenever the principal is unauthenticated, the `else` paired with the
`by_user` check raises `AuthenticationFailed`. -/
lemma list_eq_authFailed_of_unauth (db : DB) (req : Request)
    (h : req.isAuthenticated = false) : list db req = (ListResult.authFailed, db) := by
  unfold list
  rw [h]
  simp

/-- A non-empty string that `int` rejects makes the `qty` slice raise the
uncaught `ValueError`. -/
lemma sliceQty_none_of_bad (q : String) (qs : List QItem)
    (hne : q ≠ "") (hbad : pyInt? q = none) :
    sliceQty (some q) qs = none := by
  unfold sliceQty
  simp [hne, hbad]

/-! ### Claim C8 -/

/-- Claim C8: for every request and every database state, the handler
returns the Server / Category / Membership stores unchanged on every exit
path, response or raise — it only reads. -/
theorem c8_read_only (db : DB) (req : Request) : (list db req).2 = db := by
  unfold list
  repeat' split
  all_goals rfl

/-! ### Claim C1 -/

/-- Claim C1, counterexample: the claim predicts that an authenticated
request with no query parameters gets HTTP 200 with exactly the servers
the principal is a member of (here `[srvA]`) and no error; the handler
instead raises `AuthenticationFailed`, because `by_user` is absent and the
`else` paired with the `by_user` check fires. -/
theorem c1_counterexample :
    (list dbOne baseReq).1 = ListResult.authFailed ∧
      (list dbOne baseReq).1 ≠ ListResult.ok [serializeServer false (srvA, none)] :=
  ⟨rfl, by decide⟩

/-- Claim C1, amended: for every database state and every authenticated
request carrying no query parameters, the handler raises
`AuthenticationFailed` (never HTTP 200), since `by_user` is absent and the
`else` of the `by_user` check is reached. -/
theorem c1_amended (db : DB) (req : Request)
    (hcat : req.category = none) (hqty : req.qty = none) (hbu : req.by_user = none)
    (hsid : req.by_serverid = none) (hwnm : req.with_num_members = none)
    (hauth : req.isAuthenticated = true) :
    (list db req).1 = ListResult.authFailed := by
  rw [list_eq_authFailed_of_by_user_ne db req (by simp [hbu])]

/-- Claim C1, witness for the amended theorem at a concrete store and
request. -/
theorem c1_witness :
    baseReq.isAuthenticated = true ∧ (list dbOne baseReq).1 = ListResult.authFailed :=
  ⟨rfl, c1_amended dbOne baseReq rfl rfl rfl rfl rfl rfl⟩

/-! ### Claim C2 -/

/-- Claim C2: for every request in which `by_user` is absent or not equal
to `"true"`, the handler raises `AuthenticationFailed` regardless of
whether the principal is authenticated, because the `else` paired with the
`by_user` check is reached whenever `by_user` is false. -/
theorem c2_by_user_not_true_auth_failed (db : DB) (req : Request)
    (h : req.by_user ≠ some "true") :
    (list db req).1 = ListResult.authFailed := by
  rw [list_eq_authFailed_of_by_user_ne db req h]

/-- Claim C2, witness at a concrete request with `by_user=false` and an
authenticated principal. -/
theorem c2_witness :
    ({ baseReq with by_user := some "false" } : Request).by_user ≠ some "true" ∧
      (list dbOne { baseReq with by_user := some "false" }).1 = ListResult.authFailed :=
  ⟨by decide, c2_by_user_not_true_auth_failed dbOne _ (by decide)⟩

/-! ### Claim C3 -/

/-- Claim C3: every unauthenticated request with `by_user="true"` or with
`by_serverid` present raises `AuthenticationFailed` and never yields an
HTTP 200 response. -/
theorem c3_unauth_never_ok (db : DB) (req : Request)
    (hauth : req.isAuthenticated = false)
    (hparam : req.by_user = some "true" ∨ req.by_serverid ≠ none) :
    (list db req).1 = ListResult.authFailed ∧ ∀ l, (list db req).1 ≠ ListResult.ok l := by
  rw [list_eq_authFailed_of_unauth db req hauth]
  exact ⟨rfl, fun l hl => ListResult.noConfusion hl⟩

/-- Claim C3, witness at a concrete unauthenticated request with
`by_user="true"`. -/
theorem c3_witness :
    ({ baseReq with by_user := some "true", isAuthenticated := false } : Request).isAuthenticated
        = false ∧
      (list dbOne { baseReq with by_user := some "true", isAuthenticated := false }).1 =
        ListResult.authFailed ∧
      (list dbOne { baseReq with by_user := some "true", isAuthenticated := false }).1 ≠
        ListResult.ok [] := by
  have h := c3_unauth_never_ok dbOne
    { baseReq with by_user := some "true", isAuthenticated := false } rfl (Or.inl rfl)
  exact ⟨rfl, h.1, h.2 []⟩

/-! ### Claim C9 -/

/-- Claim C9, counterexample: the claim predicts an unhandled `ValueError`
for every request whose `qty` is present, non-empty and unparseable; but
with `by_user` absent the handler raises `AuthenticationFailed` before the
`int(qty)` conversion is ever reached. -/
theorem c9_counterexample :
    (list dbOne { baseReq with qty := some "abc" }).1 = ListResult.authFailed ∧
      (list dbOne { baseReq with qty := some "abc" }).1 ≠ ListResult.valueError :=
  ⟨rfl, by decide⟩

/-- Claim C9, amended: on requests that pass the `by_user` gate
(`by_user="true"` and authenticated), a present, non-empty, unparseable
`qty` makes the unguarded `int(qty)` raise an unhandled `ValueError`, so
the failure is never surfaced as a `ValidationError` (HTTP 400). -/
theorem c9_amended (db : DB) (req : Request) (q : String)
    (hbu : req.by_user = some "true") (hauth : req.isAuthenticated = true)
    (hq : req.qty = some q) (hne : q ≠ "") (hbad : pyInt? q = none) :
    (list db req).1 = ListResult.valueError ∧
      ∀ d, (list db req).1 ≠ ListResult.validationError d := by
  have hgate : (req.by_user == some "true" && req.isAuthenticated) = true := by
    simp [hbu, hauth]
  unfold list
  rw [if_pos hgate, hq, sliceQty_none_of_bad q _ hne hbad]
  exact ⟨rfl, fun d hd => ListResult.noConfusion hd⟩

/-- Claim C9, witness at `qty="abc"` with the gate passed. -/
theorem c9_witness :
    pyInt? "abc" = none ∧
      (list dbOne { baseReq with by_user := some "true", qty := some "abc" }).1 =
        ListResult.valueError := by
  have h := c9_amended dbOne { baseReq with by_user := some "true", qty := some "abc" }
    "abc" rfl rfl rfl (by decide) rfl
  exact ⟨rfl, h.1⟩

/-! ### Queryset provenance lemmas -/

/-- Every item surviving the `qty` slice was in the queryset before it. -/
lemma sliceQty_subset (qty : Option String) (A qs : List QItem)
    (h : sliceQty qty A = some qs) : ∀ x ∈ qs, x ∈ A := by
  intro x hx
  unfold sliceQty at h
  split at h
  · injection h with h
    exact h ▸ hx
  · split at h
    · injection h with h
      exact h ▸ hx
    · split at h
      · exact Option.noConfusion h
      · injection h with h
        exact List.take_subset _ _ (h ▸ hx)

/-- When `qty` parses (or the branch is skipped), the slice succeeds. -/
def qtyParses : Option String → Prop
  | none => True
  | some q => q = "" ∨ (pyInt? q).isSome = true

/-- The slice yields a queryset — no `ValueError` — whenever `qty` is
absent, empty (falsy) or integer-parseable. -/
lemma sliceQty_some_of_parses (qty : Option String) (A : List QItem)
    (h : qtyParses qty) : ∃ qs, sliceQty qty A = some qs := by
  cases qty with
  | none => exact ⟨A, rfl⟩
  | some q =>
    unfold qtyParses at h
    rcases h with rfl | hs
    · exact ⟨A, rfl⟩
    · cases hpi : pyInt? q with
      | none => rw [hpi] at hs; cases hs
      | some k =>
        by_cases hq : (q == "") = true
        · refine ⟨A, ?_⟩
          simp only [sliceQty]
          rw [if_pos hq]
        · refine ⟨A.take k.toNat, ?_⟩
          simp only [sliceQty]
          rw [if_neg hq, hpi]

/-- Every record of a 200 response is the serialization of an item of the
queryset as it stood after the category, membership and annotation steps
(the later `qty` slice and id filter only narrow it). -/
lemma ok_provenance (db : DB) (req : Request) (l : List SerializedServer)
    (hok : (list db req).1 = ListResult.ok l) :
    ∀ r ∈ l, ∃ p ∈ qsAnnotated db req,
      r = serializeServer (req.with_num_members == some "true") p := by
  intro r hr
  unfold list at hok
  split at hok
  case isTrue hgate =>
    split at hok
    case h_1 => exact ListResult.noConfusion hok
    case h_2 qs hslice =>
      have hsub := sliceQty_subset req.qty (qsAnnotated db req) qs hslice
      split at hok
      case h_1 =>
        have hl : qs.map (serializeServer (req.with_num_members == some "true")) = l :=
          ListResult.ok.inj hok
        rw [← hl] at hr
        rcases List.mem_map.mp hr with ⟨p, hp, hpr⟩
        exact ⟨p, hsub p hp, hpr.symm⟩
      case h_2 sid hbs =>
        split at hok
        case isTrue =>
          have hl : qs.map (serializeServer (req.with_num_members == some "true")) = l :=
            ListResult.ok.inj hok
          rw [← hl] at hr
          rcases List.mem_map.mp hr with ⟨p, hp, hpr⟩
          exact ⟨p, hsub p hp, hpr.symm⟩
        case isFalse =>
          split at hok
          case isTrue => exact ListResult.noConfusion hok
          case isFalse =>
            split at hok
            case h_1 => exact ListResult.noConfusion hok
            case h_2 i hpi =>
              split at hok
              case isTrue => exact ListResult.noConfusion hok
              case isFalse =>
                have hl : (qs.filter (fun p => (p.1.id : Int) == i)).map
                    (serializeServer (req.with_num_members == some "true")) = l :=
                  ListResult.ok.inj hok
                rw [← hl] at hr
                rcases List.mem_map.mp hr with ⟨p, hp, hpr⟩
                exact ⟨p, hsub p (List.mem_filter.mp hp).1, hpr.symm⟩
  case isFalse => exact ListResult.noConfusion hok

/-- The underlying server of an annotated item comes from the
membership-filtered queryset. -/
lemma qsAnnotated_fst_mem (db : DB) (req : Request) {p : QItem}
    (hp : p ∈ qsAnnotated db req) : ∃ q ∈ qsMember db req, p.1 = q.1 := by
  unfold qsAnnotated at hp
  by_cases hw : (req.with_num_members == some "true") = true
  · rw [if_pos hw] at hp
    rcases List.mem_map.mp hp with ⟨q, hq, hqe⟩
    exact ⟨q, hq, by rw [← hqe]⟩
  · rw [if_neg hw] at hp
    exact ⟨p, hp, rfl⟩

/-- With `with_num_members="true"`, every annotated item carries exactly
the member count of its server. -/
lemma qsAnnotated_snd (db : DB) (req : Request) {p : QItem}
    (hw : req.with_num_members = some "true") (hp : p ∈ qsAnnotated db req) :
    p.2 = some (memberCount db p.1.id) := by
  unfold qsAnnotated at hp
  rw [if_pos (by simp [hw])] at hp
  rcases List.mem_map.mp hp with ⟨q, hq, hqe⟩
  rw [← hqe]

/-- With a present, non-empty `category` parameter, every item of the
category-filtered queryset has exactly that category name. -/
lemma qsCategory_name (db : DB) (req : Request) (c : String)
    (hc : req.category = some c) (hne : c ≠ "")
    {p : QItem} (hp : p ∈ qsCategory db req) : p.1.category.name = c := by
  simp only [qsCategory, hc] at hp
  rw [if_neg (by simp [hne])] at hp
  have := (List.mem_filter.mp hp).2
  simpa using this

/-! ### Claim C7 -/

/-- Claim C7: on every succeeding request, when `with_num_members` is
`"true"` every record of the response carries `num_members` equal to the
server's member count at query time, and when it is not `"true"` no
record carries the field. -/
theorem c7_with_num_members (db : DB) (req : Request) (l : List SerializedServer)
    (hok : (list db req).1 = ListResult.ok l) :
    (req.with_num_members = some "true" →
      ∀ r ∈ l, r.numMembers = some (memberCount db r.id)) ∧
    (req.with_num_members ≠ some "true" → ∀ r ∈ l, r.numMembers = none) := by
  constructor
  · intro hw r hr
    rcases ok_provenance db req l hok r hr with ⟨p, hp, hre⟩
    have hw' : (req.with_num_members == some "true") = true := by simp [hw]
    have hsnd := qsAnnotated_snd db req hw hp
    rw [hre, hw']
    show (if true then p.2 else none) = some (memberCount db p.1.id)
    rw [if_pos rfl]
    exact hsnd
  · intro hw r hr
    rcases ok_provenance db req l hok r hr with ⟨p, hp, hre⟩
    have hw' : (req.with_num_members == some "true") = false := beq_eq_false_iff_ne.mpr hw
    rw [hre, hw']
    rfl

/-- Claim C7, witness at a concrete request with `with_num_members="true"`
on a store where server 1 has one member. -/
theorem c7_witness :
    ({ baseReq with by_user := some "true", with_num_members := some "true" } :
        Request).with_num_members = some "true" ∧
      (serializeServer true (srvA, some 1)).numMembers =
        some (memberCount dbOne (serializeServer true (srvA, some 1)).id) := by
  have h := c7_with_num_members dbOne
    { baseReq with by_user := some "true", with_num_members := some "true" }
    [serializeServer true (srvA, some 1)] rfl
  exact ⟨rfl, h.1 rfl (serializeServer true (srvA, some 1)) (by simp)⟩

/-! ### Claim C5 -/

/-- Claim C5, counterexample: the claim predicts HTTP 200 with an empty
list for an authenticated request whose `category` matches no server; with
`by_user` absent the handler instead raises `AuthenticationFailed`. -/
theorem c5_counterexample :
    (list dbOne { baseReq with category := some "ruby" }).1 = ListResult.authFailed ∧
      (list dbOne { baseReq with category := some "ruby" }).1 ≠ ListResult.ok [] :=
  ⟨rfl, by decide⟩

/-- Claim C5, amended: with `category` present and non-empty, (a) every
record of any 200 response has exactly that category name, and (b) on
requests that pass the `by_user` gate, with `by_serverid` absent and `qty`
absent, falsy or parseable, an unmatched category yields HTTP 200 with an
empty list, not an error. -/
theorem c5_amended (db : DB) (req : Request) (c : String)
    (hc : req.category = some c) (hne : c ≠ "") :
    (∀ l, (list db req).1 = ListResult.ok l → ∀ r ∈ l, r.categoryName = c) ∧
    (req.by_user = some "true" → req.isAuthenticated = true → req.by_serverid = none →
      qtyParses req.qty → (∀ s ∈ db.servers, s.category.name ≠ c) →
      (list db req).1 = ListResult.ok []) := by
  constructor
  · intro l hok r hr
    rcases ok_provenance db req l hok r hr with ⟨p, hp, hre⟩
    rcases qsAnnotated_fst_mem db req hp with ⟨q, hq, hfst⟩
    have hqc : q ∈ qsCategory db req := (List.mem_filter.mp hq).1
    have hname := qsCategory_name db req c hc hne hqc
    rw [hre]
    show p.1.category.name = c
    rw [hfst]
    exact hname
  · intro hbu hauth hbs hqty hnomatch
    have hcat : qsCategory db req = [] := by
      simp only [qsCategory, hc]
      rw [if_neg (by simp [hne])]
      apply List.filter_eq_nil_iff.mpr
      intro p hp
      rcases List.mem_map.mp hp with ⟨s, hs, rfl⟩
      simp [hnomatch s hs]
    have hmem : qsMember db req = [] := by
      unfold qsMember
      rw [hcat]
      rfl
    have hann : qsAnnotated db req = [] := by
      unfold qsAnnotated
      rw [hmem]
      split <;> rfl
    rcases sliceQty_some_of_parses req.qty (qsAnnotated db req) hqty with ⟨qs, hs⟩
    have hqs : qs = [] := by
      have hsub := sliceQty_subset req.qty (qsAnnotated db req) qs hs
      rw [hann] at hsub
      exact List.eq_nil_iff_forall_not_mem.mpr (fun x hx => (List.not_mem_nil x) (hsub x hx))
    subst hqs
    have hgate : (req.by_user == some "true" && req.isAuthenticated) = true := by
      simp [hbu, hauth]
    unfold list
    rw [if_pos hgate, hs, hbs]
    rfl

/-- Claim C5, witness: with the `by_user` gate passed and a category
matching no server, the handler returns HTTP 200 with an empty list. -/
theorem c5_witness :
    ({ baseReq with category := some "ruby", by_user := some "true" } : Request).category =
        some "ruby" ∧
      (list dbOne { baseReq with category := some "ruby", by_user := some "true" }).1 =
        ListResult.ok [] := by
  have h := c5_amended dbOne
    { baseReq with category := some "ruby", by_user := some "true" } "ruby" rfl (by decide)
  exact ⟨rfl, h.2 rfl rfl rfl trivial (by decide)⟩

/-! ### Slice and id-filter lemmas for C4, C6, C10 -/

/-- With a parseable `qty` the slice is exactly `take`. -/
lemma sliceQty_eq_take (q : String) (m : Nat) (A : List QItem)
    (hm : pyInt? q = some (m : Int)) :
    sliceQty (some q) A = some (A.take m) := by
  have hqne : (q == "") = false := by
    rcases eq_or_ne q "" with rfl | h
    · rw [show pyInt? "" = none from rfl] at hm
      simp at hm
    · simp [h]
  simp only [sliceQty]
  rw [if_neg (by simp [hqne]), hm]
  rfl

/-- The category step only narrows the initial queryset. -/
lemma qsCategory_sublist (db : DB) (req : Request) :
    List.Sublist (qsCategory db req) (qsStart db) := by
  unfold qsCategory
  split
  · split
    · exact List.Sublist.refl _
    · exact List.filter_sublist _
  · exact List.Sublist.refl _

/-- The membership step only narrows the category-filtered queryset. -/
lemma qsMember_sublist (db : DB) (req : Request) :
    List.Sublist (qsMember db req) (qsCategory db req) :=
  List.filter_sublist _

/-- The ids of the initial queryset are the ids of the Server store. -/
lemma qsStart_ids (db : DB) :
    (qsStart db).map (fun p => p.1.id) = db.servers.map Server.id := by
  unfold qsStart
  rw [List.map_map]
  rfl

/-- Annotation does not change the underlying server ids. -/
lemma qsAnnotated_ids (db : DB) (req : Request) :
    (qsAnnotated db req).map (fun p => p.1.id) = (qsMember db req).map (fun p => p.1.id) := by
  unfold qsAnnotated
  split
  · rw [List.map_map]
    rfl
  · rfl

/-- The ids of the queryset surviving the slice form a sublist of the ids
of the Server store. -/
lemma ids_sublist_of_slice (db : DB) (req : Request) (qs : List QItem)
    (hqs : sliceQty req.qty (qsAnnotated db req) = some qs) :
    List.Sublist (qs.map (fun p => p.1.id)) (db.servers.map Server.id) := by
  have h1 : List.Sublist ((qsMember db req).map (fun p => p.1.id))
      (db.servers.map Server.id) := by
    rw [← qsStart_ids db]
    exact ((qsMember_sublist db req).trans (qsCategory_sublist db req)).map _
  have h1' : List.Sublist ((qsAnnotated db req).map (fun p => p.1.id))
      (db.servers.map Server.id) := by
    rw [qsAnnotated_ids db req]
    exact h1
  have h2 : List.Sublist (qs.map (fun p => p.1.id))
      ((qsAnnotated db req).map (fun p => p.1.id)) := by
    unfold sliceQty at hqs
    split at hqs
    · injection hqs with h
      rw [← h]
    · split at hqs
      · injection hqs with h
        rw [← h]
      · split at hqs
        · exact Option.noConfusion hqs
        · injection hqs with h
          rw [← h]
          exact (List.take_sublist _ _).map _
  exact h2.trans h1'

/-- A duplicate-free list of naturals that is constant has at most one
entry. -/
lemma length_le_one_of_nodup_const {l : List Nat} (hn : l.Nodup) (c : Nat)
    (hc : ∀ x ∈ l, x = c) : l.length ≤ 1 := by
  cases l with
  | nil => simp
  | cons a t =>
    cases t with
    | nil => simp
    | cons b t2 =>
      exfalso
      have hab : a = b := (hc a (by simp)).trans ((hc b (by simp)).symm)
      have h1 := (List.nodup_cons.mp hn).1
      exact h1 (by rw [hab]; exact List.mem_cons_self b t2)

/-- When the Server store has duplicate-free ids, the id filter keeps at
most one item. -/
lemma filter_id_unique (db : DB) (req : Request) (qs : List QItem) (i : Int)
    (hqs : sliceQty req.qty (qsAnnotated db req) = some qs)
    (hnodup : (db.servers.map Server.id).Nodup) :
    (qs.filter (fun p => (p.1.id : Int) == i)).length ≤ 1 := by
  have hsub := ids_sublist_of_slice db req qs hqs
  have hqsn : (qs.map (fun p => p.1.id)).Nodup := List.Nodup.sublist hsub hnodup
  have hmsub : List.Sublist ((qs.filter (fun p => (p.1.id : Int) == i)).map (fun p => p.1.id))
      (qs.map (fun p => p.1.id)) := (List.filter_sublist _).map _
  have hmn := List.Nodup.sublist hmsub hqsn
  rw [← List.length_map (qs.filter (fun p => (p.1.id : Int) == i)) (fun p => p.1.id)]
  apply length_le_one_of_nodup_const hmn i.toNat
  intro x hx
  rcases List.mem_map.mp hx with ⟨p, hp, rfl⟩
  have hpi := (List.mem_filter.mp hp).2
  have heq : (p.1.id : Int) = i := by simpa using hpi
  rw [← heq]
  rfl

/-! ### Claim C4 -/

/-- Claim C4, counterexample: `by_serverid=999` with an authenticated
principal and no matching server; the claim predicts ValidationError
`"Server with id 999 no found"`, but with `by_user` absent the handler
raises `AuthenticationFailed` before the id filter is reached. -/
theorem c4_counterexample :
    (list dbOne { baseReq with by_serverid := some "999" }).1 = ListResult.authFailed ∧
      (list dbOne { baseReq with by_serverid := some "999" }).1 ≠
        ListResult.validationError "Server with id 999 no found" :=
  ⟨rfl, by decide⟩

/-- Claim C4, amended: on requests that pass the `by_user` gate and carry
a present, non-empty `by_serverid` (with the `qty` slice succeeding on
queryset `qs`): an unparseable id yields ValidationError
`"Server value error"`; a parseable id matching nothing in the current
result set yields ValidationError `"Server with id {id} no found"`;
otherwise only the matching items are retained — exactly one when the
Server store has duplicate-free ids. -/
theorem c4_amended (db : DB) (req : Request) (sid : String) (qs : List QItem)
    (hbu : req.by_user = some "true") (hauth : req.isAuthenticated = true)
    (hsid : req.by_serverid = some sid) (hne : sid ≠ "")
    (hqs : sliceQty req.qty (qsAnnotated db req) = some qs) :
    (pyInt? sid = none → (list db req).1 = ListResult.validationError "Server value error") ∧
    (∀ i : Int, pyInt? sid = some i →
      (qs.filter (fun p => (p.1.id : Int) == i) = [] →
        (list db req).1 =
          ListResult.validationError ("Server with id " ++ sid ++ " no found")) ∧
      (qs.filter (fun p => (p.1.id : Int) == i) ≠ [] →
        (list db req).1 = ListResult.ok ((qs.filter (fun p => (p.1.id : Int) == i)).map
          (serializeServer (req.with_num_members == some "true"))) ∧
        (∀ p ∈ qs.filter (fun p => (p.1.id : Int) == i), (p.1.id : Int) = i) ∧
        ((db.servers.map Server.id).Nodup →
          (qs.filter (fun p => (p.1.id : Int) == i)).length = 1))) := by
  have hgate : (req.by_user == some "true" && req.isAuthenticated) = true := by
    simp [hbu, hauth]
  constructor
  · intro hpi
    unfold list
    rw [if_pos hgate]
    simp only [hqs, hsid]
    rw [if_neg (by simp [hne]), hauth, if_neg (by simp)]
    simp only [hpi]
  · intro i hpi
    constructor
    · intro hempty
      unfold list
      rw [if_pos hgate]
      simp only [hqs, hsid]
      rw [if_neg (by simp [hne]), hauth, if_neg (by simp)]
      simp only [hpi]
      rw [if_pos (by rw [hempty]; rfl)]
    · intro hnonempty
      have hempty' : (qs.filter (fun p => (p.1.id : Int) == i)).isEmpty = false := by
        rcases hl : qs.filter (fun p => (p.1.id : Int) == i) with _ | ⟨a, t⟩
        · exact absurd hl hnonempty
        · rw [hl]
          rfl
      refine ⟨?_, ?_, ?_⟩
      · unfold list
        rw [if_pos hgate]
        simp only [hqs, hsid]
        rw [if_neg (by simp [hne]), hauth, if_neg (by simp)]
        simp only [hpi]
        rw [if_neg (by simp [hempty'])]
      · intro p hp
        have hpi2 := (List.mem_filter.mp hp).2
        simpa using hpi2
      · intro hnodup
        have hle := filter_id_unique db req qs i hqs hnodup
        have hpos : 0 < (qs.filter (fun p => (p.1.id : Int) == i)).length :=
          List.length_pos.mpr hnonempty
        omega

/-- Claim C4, witness: with the gate passed, `by_serverid="1"` retains
exactly server 1 and the handler answers 200 with that single record. -/
theorem c4_witness :
    pyInt? "1" = some 1 ∧
      (list dbOne { baseReq with by_user := some "true", by_serverid := some "1" }).1 =
        ListResult.ok [serializeServer false (srvA, none)] ∧
      ((qsAnnotated dbOne { baseReq with by_user := some "true", by_serverid := some "1" }).filter
          (fun p => (p.1.id : Int) == 1)).length = 1 := by
  have h := c4_amended dbOne { baseReq with by_user := some "true", by_serverid := some "1" }
    "1" (qsAnnotated dbOne { baseReq with by_user := some "true", by_serverid := some "1" })
    rfl rfl rfl (by decide) rfl
  have h3 := (h.2 1 rfl).2 (by decide)
  refine ⟨rfl, ?_, h3.2.2 (by decide)⟩
  rw [h3.1]
  rfl

/-! ### Claim C6 -/

/-- Gate passed, `qty="2"`, `by_serverid="1"`: the C6 counterexample
request. -/
def reqQtyTwoIdOne : Request :=
  { baseReq with by_user := some "true", qty := some "2", by_serverid := some "1" }

/-- Gate passed, `qty="1"`, `by_serverid="2"`: the C10 witness request. -/
def reqQtyOneIdTwo : Request :=
  { baseReq with by_user := some "true", qty := some "1", by_serverid := some "2" }

/-- Claim C6, counterexample: `qty="2"` with three matching servers, but
also `by_serverid="1"`.  The claim demands exactly the first two entries;
the handler applies the id filter after the truncation and returns a
single record. -/
theorem c6_counterexample :
    (list dbThree reqQtyTwoIdOne).1 = ListResult.ok [serializeServer false (srvA, none)] ∧
      2 < (qsAnnotated dbThree reqQtyTwoIdOne).length ∧
      [serializeServer false (srvA, none)].length ≠ 2 :=
  ⟨rfl, by decide, by decide⟩

/-- Claim C6, amended: with `qty` present and parseable as `m` and
`by_serverid` absent or empty (falsy), any 200 response is exactly the
first `m` entries of the filtered result set in its default order: at most
`m` records, and exactly `m` when more than `m` servers match. -/
theorem c6_amended (db : DB) (req : Request) (q : String) (m : Nat)
    (hq : req.qty = some q) (hm : pyInt? q = some (m : Int))
    (hbs : req.by_serverid = none ∨ req.by_serverid = some "") :
    ∀ l, (list db req).1 = ListResult.ok l →
      l = ((qsAnnotated db req).take m).map
        (serializeServer (req.with_num_members == some "true")) ∧
      l.length ≤ m ∧
      (m < (qsAnnotated db req).length → l.length = m) := by
  intro l hok
  have hslice : sliceQty req.qty (qsAnnotated db req) =
      some ((qsAnnotated db req).take m) := by
    rw [hq]
    exact sliceQty_eq_take q m _ hm
  unfold list at hok
  split at hok
  case isFalse => exact ListResult.noConfusion hok
  case isTrue hgate =>
    simp only [hslice] at hok
    have hl : ((qsAnnotated db req).take m).map
        (serializeServer (req.with_num_members == some "true")) = l := by
      rcases hbs with hbs | hbs
      · simp only [hbs] at hok
        exact ListResult.ok.inj hok
      · simp only [hbs] at hok
        rw [if_pos (by rfl)] at hok
        exact ListResult.ok.inj hok
    have hlen : l.length = min m (qsAnnotated db req).length := by
      rw [← hl]
      simp [List.length_map, List.length_take]
    refine ⟨hl.symm, ?_, ?_⟩
    · rw [hlen]
      exact Nat.min_le_left _ _
    · intro hgt
      rw [hlen]
      exact Nat.min_eq_left (Nat.le_of_lt hgt)

/-- Claim C6, witness: `qty="2"` on a store with three matching servers
and no `by_serverid` returns exactly two records. -/
theorem c6_witness :
    ({ baseReq with by_user := some "true", qty := some "2" } : Request).qty = some "2" ∧
      [serializeServer false (srvA, none), serializeServer false (srvB, none)].length = 2 := by
  have h := c6_amended dbThree { baseReq with by_user := some "true", qty := some "2" } "2" 2
    rfl rfl (Or.inl rfl)
    [serializeServer false (srvA, none), serializeServer false (srvB, none)] rfl
  exact ⟨rfl, h.2.2 (by decide)⟩

/-! ### Claim C10 -/

/-- Claim C10: when `qty` and `by_serverid` are both present and the other
guards pass, the id filter runs on the already-truncated queryset, so a
server whose id matches but lies outside the first `qty` entries is
treated as not found and the handler raises the
`"Server with id {id} no found"` ValidationError. -/
theorem c10_qty_before_serverid (db : DB) (req : Request) (q sid : String) (m : Nat) (i : Int)
    (hbu : req.by_user = some "true") (hauth : req.isAuthenticated = true)
    (hq : req.qty = some q) (hm : pyInt? q = some (m : Int))
    (hsid : req.by_serverid = some sid) (hsne : sid ≠ "")
    (hi : pyInt? sid = some i)
    (hmatch : ∃ p ∈ qsAnnotated db req, (p.1.id : Int) = i)
    (hout : ∀ p ∈ (qsAnnotated db req).take m, (p.1.id : Int) ≠ i) :
    (list db req).1 = ListResult.validationError ("Server with id " ++ sid ++ " no found") := by
  have hgate : (req.by_user == some "true" && req.isAuthenticated) = true := by
    simp [hbu, hauth]
  have hslice : sliceQty req.qty (qsAnnotated db req) =
      some ((qsAnnotated db req).take m) := by
    rw [hq]
    exact sliceQty_eq_take q m _ hm
  have hempty : ((qsAnnotated db req).take m).filter (fun p => (p.1.id : Int) == i) = [] := by
    apply List.filter_eq_nil_iff.mpr
    intro p hp
    simpa using hout p hp
  unfold list
  rw [if_pos hgate]
  simp only [hslice, hsid]
  rw [if_neg (by simp [hsne]), hauth, if_neg (by simp)]
  simp only [hi]
  rw [if_pos (by rw [hempty]; rfl)]

/-- Claim C10, witness: three matching servers, `qty="1"`, and
`by_serverid="2"`: server 2 exists and matches the id, but lies outside
the first entry, so the handler answers with the not-found
ValidationError. -/
theorem c10_witness :
    (∀ p ∈ (qsAnnotated dbThree reqQtyOneIdTwo).take 1, (p.1.id : Int) ≠ 2) ∧
      (list dbThree reqQtyOneIdTwo).1 =
        ListResult.validationError ("Server with id " ++ "2" ++ " no found") := by
  refine ⟨by decide, ?_⟩
  exact c10_qty_before_serverid dbThree reqQtyOneIdTwo
    "1" "2" 1 2 rfl rfl rfl rfl rfl (by decide) rfl
    ⟨(srvB, none), by decide, by decide⟩ (by decide)
